import Mathlib

/-!
Verification of the Zentral client-side data-access layer
(`storage_service.js`, `api_adapter.js`, `local_storage_adapter.js`).

The JavaScript code is shallowly embedded: JS values become the inductive
type `JVal`, JS objects become ordered association lists of fields (JS
object keys are unique and ordered; property update replaces the value at
the key's position, property addition appends), JS arrays become `JArr`
(isomorphic to `List JVal` via `JArr.toList`/`JArr.ofList`).  `Date.now()`
is an explicit `now : Int` parameter.  The asynchronous adapter paths of
the facade mirror the synchronous ones step for step (`res.then(f)` versus
`f res`), so facade operations are modelled on their synchronous branch.
Remote HTTP calls are an explicit oracle `http : HttpReq → Except String
JVal` standing for the `_json` helper (which resolves with the decoded
body or throws), and each adapter operation also returns the list of
requests it issued.
-/

mutual
/-- A JavaScript runtime value.  `undefined` is `undefined`; `num` carries the
integral numbers the data layer actually uses (timestamps, limits,
counts); `obj` is an ordered association list of own properties. -/
inductive JVal where
  | undefined
  | null
  | bool (b : Bool)
  | num (n : Int)
  | str (s : String)
  | arr (elems : JArr)
  | obj (fields : List (String × JVal))

inductive JArr where
  | nil
  | cons (hd : JVal) (tl : JArr)
end

def JArr.toList : JArr → List JVal
  | .nil => []
  | .cons x tl => x :: tl.toList

def JArr.ofList : List JVal → JArr
  | [] => .nil
  | x :: tl => .cons x (JArr.ofList tl)

/-- A JS array literal from a Lean list. -/
def jarr (xs : List JVal) : JVal := JVal.arr (JArr.ofList xs)

/-- JS truthiness: `undefined`, `null`, `false`, `0` and `''` are falsy;
every object and array is truthy. -/
def truthy : JVal → Bool
  | .undefined => false
  | .null => false
  | .bool b => b
  | .num n => n != 0
  | .str s => s != ""
  | .arr _ => true
  | .obj _ => true

/-- Models `typeof v === 'object'` for a non-null value: objects and arrays. -/
def isObjLike : JVal → Bool
  | .arr _ => true
  | .obj _ => true
  | _ => false

/-- Models `Array.isArray`. -/
def isArr : JVal → Bool
  | .arr _ => true
  | _ => false

/-- Models loose `v == null`: `null` or `undefined`. -/
def nullish : JVal → Bool
  | .null => true
  | .undefined => true
  | _ => false

/-- Models `v ?? null`. -/
def orNull (v : JVal) : JVal := if nullish v then JVal.null else v

/-- Models `v === 's'` for a string literal `s`. -/
def strEq (v : JVal) (s : String) : Bool :=
  match v with
  | .str t => t == s
  | _ => false

mutual
/-- JS `String(v)` string coercion.  Arrays stringify as their elements
joined by commas, with `null`/`undefined` elements contributing the empty
string; objects stringify as `[object Object]`. -/
def jsToString : JVal → String
  | .undefined => "undefined"
  | .null => "null"
  | .bool b => if b then "true" else "false"
  | .num n => toString n
  | .str s => s
  | .obj _ => "[object Object]"
  | .arr xs => jarrToString xs

def jarrToString : JArr → String
  | .nil => ""
  | .cons x tl =>
      (match x with
       | .undefined => ""
       | .null => ""
       | v => jsToString v)
      ++ (match tl with
          | .nil => ""
          | t => "," ++ jarrToString t)
end

/-- Models `safeStr(v) = String(v ?? '')` from `storage_service.js`. -/
def safeStr (v : JVal) : String :=
  if nullish v then "" else jsToString v

/-- First binding of a key in a field list (JS objects hold at most one). -/
def lookupKey : List (String × JVal) → String → Option JVal
  | [], _ => none
  | (k', v) :: rest, k => if k' = k then some v else lookupKey rest k

/-- JS property write / object-literal override: replace the value at the
key's existing position, or append the binding at the end. -/
def setKey : List (String × JVal) → String → JVal → List (String × JVal)
  | [], k, v => [(k, v)]
  | (k', v') :: rest, k, v =>
      if k' = k then (k, v) :: rest else (k', v') :: setKey rest k v

/-- JS property read `v.k` for the property names the source uses (all
non-numeric, so named reads on arrays and primitives yield `undefined`;
array index access is modelled directly on the element list). -/
def getField (v : JVal) (k : String) : JVal :=
  match v with
  | .obj fs => (lookupKey fs k).getD .undefined
  | _ => .undefined

/-- Optional chaining `x?.k`. -/
def optField (v : JVal) (k : String) : JVal :=
  match v with
  | .null => .undefined
  | .undefined => .undefined
  | w => getField w k

/-- The own enumerable fields `{...v}` spreads into an object literal. -/
def spreadFields : JVal → List (String × JVal)
  | .obj fs => fs
  | .arr a => (a.toList.enum.map fun p => (toString p.fst, p.snd))
  | _ => []

/-- Property assignment / spread-with-override `{...v, k: w}`; on the
objects the source applies it to this coincides with `v.k = w`. -/
def setField (v : JVal) (k : String) (w : JVal) : JVal :=
  JVal.obj (setKey (spreadFields v) k w)

/-- Models the record coercion `x && typeof x === 'object' ? x : ...` with the empty record as fallback. -/
def toRecord (v : JVal) : JVal :=
  if truthy v && isObjLike v then v else JVal.obj []

/-- Models `ensureArray(x)` (`Array.isArray(x) ? x : []`), as its element list. -/
def ensureArray : JVal → List JVal
  | .arr a => a.toList
  | _ => []

/-- The three-key `origin_ref` record shape. -/
def canonicalRef (p l m : JVal) : JVal :=
  JVal.obj [("product_id", p), ("lot_id", l), ("inventory_movement_id", m)]

/-- Models `normalizeExpense` from `storage_service.js` lines 10-32, with
`nowTs()` passed in as `now`. -/
def normalizeExpense (now : Int) (exp : JVal) : JVal :=
  let e := if truthy exp && isObjLike exp then exp else JVal.obj []
  let eo := getField e "origin"
  let origin : JVal :=
    if strEq eo "inventory" || strEq eo "manual" then eo
    else if strEq eo "Inventory" || strEq eo "Desde Inventario" || strEq eo "InventoryOrigin" then
      JVal.str "inventory"
    else if truthy eo then JVal.str (safeStr eo) else JVal.str "manual"
  let originNorm := if strEq origin "inventory" then JVal.str "inventory" else JVal.str "manual"
  let createdAt : JVal :=
    match getField e "created_at" with
    | JVal.num n => JVal.num n
    | _ => JVal.num now
  let originRef :=
    if truthy (getField e "origin_ref") && isObjLike (getField e "origin_ref") then
      getField e "origin_ref"
    else canonicalRef JVal.null JVal.null JVal.null
  JVal.obj (setKey (setKey (setKey (spreadFields e)
    "origin" originNorm)
    "origin_ref" (canonicalRef
      (orNull (getField originRef "product_id"))
      (orNull (getField originRef "lot_id"))
      (orNull (getField originRef "inventory_movement_id"))))
    "created_at" createdAt)

/-- Models `Array.prototype.findIndex`, as an optional index. -/
def findIndexJ (p : JVal → Bool) : List JVal → Option Nat
  | [] => none
  | x :: tl => if p x then some 0 else (findIndexJ p tl).map (· + 1)

/-- The identifier Upsert assigns: `safeStr(next.id || nowTs())` computed
on the normalized entity (`storage_service.js` lines 73/82). -/
def StorageService.upsertId (now : Int) (expense : JVal) : String :=
  let next := normalizeExpense now expense
  safeStr (if truthy (getField next "id") then getField next "id" else JVal.num now)

/-- The collection the facade's `saveExpenses` hands to the bound adapter:
`ensureArray(arr).map(normalizeExpense)` (`storage_service.js` lines 61-65). -/
def StorageService.saveExpenses (now : Int) (arr : JVal) : List JVal :=
  (ensureArray arr).map (normalizeExpense now)

/-- Models `upsertExpense` (`storage_service.js` lines 67-88, synchronous branch),
as the collection written back through `saveExpenses`.  `res` is whatever
the bound adapter's `getExpenses` returned, so the current collection the
facade sees is `ensureArray(res).map(normalizeExpense)`. -/
def StorageService.upsertExpense (now : Int) (res expense : JVal) : List JVal :=
  let next := normalizeExpense now expense
  let list := (ensureArray res).map (normalizeExpense now)
  let id := StorageService.upsertId now expense
  let next1 := setField next "id" (JVal.str id)
  let arr2 :=
    match findIndexJ (fun x => safeStr (optField x "id") == id) list with
    | some i => list.set i next1
    | none => list ++ [next1]
  StorageService.saveExpenses now (jarr arr2)

/-- Models `addExpenseFromInventory` (`storage_service.js` lines 90-93):
normalize with `origin` forced to `'inventory'`, then upsert. -/
def StorageService.addExpenseFromInventory (now : Int) (res expense : JVal) : List JVal :=
  StorageService.upsertExpense now res
    (normalizeExpense now (setField expense "origin" (JVal.str "inventory")))

/-- Models `addInventoryLot` (`storage_service.js` lines 164-183, synchronous
branch).  `lotsRes`/`expensesRes` are the bound adapter's responses to
`getInventoryLots`/`getExpenses`.  Returns the lots collection written
through `saveInventoryLots` and, when an expense payload was supplied, the
expenses collection written through the chained `addExpenseFromInventory`. -/
def StorageService.addInventoryLot (now : Int) (lotsRes expensesRes lot expensePayload : JVal) :
    List JVal × Option (List JVal) :=
  let l := toRecord lot
  let lotId := safeStr (if truthy (getField l "id") then getField l "id" else JVal.num now)
  let payload := setField l "id" (JVal.str lotId)
  let arr := ensureArray lotsRes ++ [payload]
  if truthy expensePayload && isObjLike expensePayload then
    (arr, some (StorageService.addExpenseFromInventory now expensesRes
      (setField expensePayload "origin_ref"
        (canonicalRef (orNull (getField payload "product_id")) (getField payload "id") JVal.null))))
  else (arr, none)

/-- A bound adapter, restricted to the optional capabilities the facade
probes for (`typeof a.<op> === 'function'`); `none` models an adapter that
does not expose the operation. -/
structure Adapter where
  getEmployees : Option (Unit → JVal)
  saveEmployees : Option (JVal → JVal)
  getInventoryMovements : Option (JVal → JVal)
  saveInventoryMovements : Option (JVal → JVal)
  getCashCounts : Option (JVal → JVal)
  getOverdueCustomersCount : Option (JVal → JVal)

/-- Facade `getEmployees` (`storage_service.js` lines 185-190); the flag
records whether the adapter was called. -/
def StorageService.getEmployees (a : Adapter) : Bool × JVal :=
  match a.getEmployees with
  | none => (false, jarr [])
  | some f => (true, jarr (ensureArray (f ())))

/-- Facade `saveEmployees` (`storage_service.js` lines 192-196);
`JVal.undefined` is the bare  `return;`. -/
def StorageService.saveEmployees (a : Adapter) (arr : JVal) : Bool × JVal :=
  match a.saveEmployees with
  | none => (false, JVal.undefined)
  | some f => (true, f (jarr (ensureArray arr)))

/-- Facade `getInventoryMovements` (`storage_service.js` lines 134-139). -/
def StorageService.getInventoryMovements (a : Adapter) (opts : JVal) : Bool × JVal :=
  match a.getInventoryMovements with
  | none => (false, jarr [])
  | some f => (true, jarr (ensureArray (f opts)))

/-- Facade `saveInventoryMovements` (`storage_service.js` lines 141-145). -/
def StorageService.saveInventoryMovements (a : Adapter) (arr : JVal) : Bool × JVal :=
  match a.saveInventoryMovements with
  | none => (false, JVal.undefined)
  | some f => (true, f (jarr (ensureArray arr)))

/-- Facade `getCashCounts` (`storage_service.js` lines 226-231). -/
def StorageService.getCashCounts (a : Adapter) (opts : JVal) : Bool × JVal :=
  match a.getCashCounts with
  | none => (false, jarr [])
  | some f => (true, jarr (ensureArray (f opts)))

/-- Facade `getOverdueCustomersCount` (`storage_service.js` lines 233-238). -/
def StorageService.getOverdueCustomersCount (a : Adapter) (opts : JVal) : Bool × JVal :=
  match a.getOverdueCustomersCount with
  | none => (false, JVal.num 0)
  | some f =>
      (true, match f opts with
             | JVal.num n => JVal.num n
             | _ => JVal.num 0)

/-- One request issued through `_json`: path, structured query-string
pairs, HTTP method, and the value passed to `JSON.stringify` as the body. -/
structure HttpReq where
  path : String
  query : List (String × String)
  method : String
  body : Option JVal

/-- JS `String.prototype.trim`: strip whitespace from both ends (written
structurally so that it evaluates; `String.trim` in this toolchain is
defined by well-founded recursion and does not reduce). -/
def jsTrim (s : String) : String :=
  ⟨((s.data.dropWhile Char.isWhitespace).reverse.dropWhile Char.isWhitespace).reverse⟩

/-- Models `URLSearchParams.set`: replace the value at an existing key in place,
otherwise append the pair. -/
def setPair : List (String × String) → String → String → List (String × String)
  | [], k, v => [(k, v)]
  | (k', v') :: rest, k, v =>
      if k' = k then (k, v) :: rest else (k', v') :: setPair rest k v

/-- Models `_qs` from `api_adapter.js` lines 2-18, as the list of query pairs the
resulting query string carries: skip `null`/`undefined` values, skip
values whose string coercion trims to empty, `set` the rest in key order. -/
def _qs (params : List (String × JVal)) : List (String × String) :=
  params.foldl (fun q kv =>
    if nullish kv.snd then q
    else if jsTrim (jsToString kv.snd) = "" then q
    else setPair q kv.fst (jsTrim (jsToString kv.snd))) []

def hexDigit (n : Nat) : Char :=
  if n < 10 then Char.ofNat (48 + n) else Char.ofNat (55 + n)

def utf8Bytes (n : Nat) : List Nat :=
  if n < 128 then [n]
  else if n < 2048 then [192 + n / 64, 128 + n % 64]
  else if n < 65536 then [224 + n / 4096, 128 + n / 64 % 64, 128 + n % 64]
  else [240 + n / 262144, 128 + n / 4096 % 64, 128 + n / 64 % 64, 128 + n % 64]

/-- Characters `encodeURIComponent` leaves unescaped. -/
def uriUnreserved (c : Char) : Bool :=
  c.isAlphanum || c == '-' || c == '_' || c == '.' || c == '!' || c == '~' ||
    c == '*' || c.toNat == 39 || c == '(' || c == ')'

def percentEscape (b : Nat) : String :=
  "%" ++ String.singleton (hexDigit (b / 16)) ++ String.singleton (hexDigit (b % 16))

def encodeURIComponent (s : String) : String :=
  s.data.foldl (fun acc c =>
    if uriUnreserved c then acc.push c
    else acc ++ String.join ((utf8Bytes c.toNat).map percentEscape)) ""

/-- Models `Array.isArray(data.items) ? data.items : []`. -/
def itemsOf (d : JVal) : JVal :=
  if isArr (getField d "items") then getField d "items" else jarr []

/-- Models `ApiAdapter.getInventoryProducts` (`api_adapter.js` lines 112-119):
the single GET request issued and the `items` of the decoded response. -/
def ApiAdapter.getInventoryProducts (http : HttpReq → Except String JVal) (opts : JVal) :
    List HttpReq × Except String JVal :=
  let o := toRecord opts
  let req : HttpReq :=
    { path := "/inventory/api/products",
      query := _qs
        [("limit", if truthy (getField o "limit") then getField o "limit" else JVal.num 5000),
         ("active", getField o "active")],
      method := "GET", body := none }
  ([req], (http req).map itemsOf)

/-- Models `ApiAdapter.getInventoryMovements` (`api_adapter.js` lines 166-175). -/
def ApiAdapter.getInventoryMovements (http : HttpReq → Except String JVal) (opts : JVal) :
    List HttpReq × Except String JVal :=
  let o := toRecord opts
  let req : HttpReq :=
    { path := "/inventory/api/movements",
      query := _qs
        [("from", getField o "from"), ("to", getField o "to"),
         ("product_id", getField o "product_id"),
         ("limit", if truthy (getField o "limit") then getField o "limit" else JVal.num 2000)],
      method := "GET", body := none }
  ([req], (http req).map itemsOf)

/-- Models `ApiAdapter.saveInventoryLots` (`api_adapter.js` lines 161-164): a safe
no-op, echoing the input; no request is issued. -/
def ApiAdapter.saveInventoryLots (_http : HttpReq → Except String JVal) (arr : JVal) :
    List HttpReq × JVal :=
  ([], if isArr arr then arr else jarr [])

/-- Models `ApiAdapter.saveInventoryMovements` (`api_adapter.js` lines 176-179). -/
def ApiAdapter.saveInventoryMovements (_http : HttpReq → Except String JVal) (arr : JVal) :
    List HttpReq × JVal :=
  ([], if isArr arr then arr else jarr [])

/-- The per-item loop of `ApiAdapter.saveInventoryProducts`
(`api_adapter.js` lines 120-151): PUT by id when the id is neither
`null`/`undefined` nor blank after string coercion, else POST; push the
response's `item` when present, the (record-coerced) input item otherwise,
also on failure. -/
def ApiAdapter.saveInventoryProductsLoop (http : HttpReq → Except String JVal) :
    List JVal → List HttpReq × List JVal
  | [] => ([], [])
  | it :: rest =>
      let p := toRecord it
      let idv := getField p "id"
      let req : HttpReq :=
        if ¬ nullish idv ∧ jsTrim (jsToString idv) ≠ "" then
          { path := "/inventory/api/products/" ++ encodeURIComponent (jsToString idv),
            query := [], method := "PUT", body := some p }
        else
          { path := "/inventory/api/products", query := [], method := "POST", body := some p }
      let outItem :=
        match http req with
        | .ok d => if truthy d && truthy (getField d "item") then getField d "item" else p
        | .error _ => p
      let r := ApiAdapter.saveInventoryProductsLoop http rest
      (req :: r.fst, outItem :: r.snd)

def ApiAdapter.saveInventoryProducts (http : HttpReq → Except String JVal) (arr : JVal) :
    List HttpReq × List JVal :=
  ApiAdapter.saveInventoryProductsLoop http (ensureArray arr)

/-- The per-item loop of `ApiAdapter.saveSales` (`api_adapter.js` lines
192-223), keyed on `ticket` instead of `id`. -/
def ApiAdapter.saveSalesLoop (http : HttpReq → Except String JVal) :
    List JVal → List HttpReq × List JVal
  | [] => ([], [])
  | it :: rest =>
      let s := toRecord it
      let tv := getField s "ticket"
      let req : HttpReq :=
        if ¬ nullish tv ∧ jsTrim (jsToString tv) ≠ "" then
          { path := "/sales/api/sales/" ++ encodeURIComponent (jsToString tv),
            query := [], method := "PUT", body := some s }
        else
          { path := "/sales/api/sales", query := [], method := "POST", body := some s }
      let outItem :=
        match http req with
        | .ok d => if truthy d && truthy (getField d "item") then getField d "item" else s
        | .error _ => s
      let r := ApiAdapter.saveSalesLoop http rest
      (req :: r.fst, outItem :: r.snd)

def ApiAdapter.saveSales (http : HttpReq → Except String JVal) (arr : JVal) :
    List HttpReq × List JVal :=
  ApiAdapter.saveSalesLoop http (ensureArray arr)

/-- Models `data && typeof data.count === 'number' ? data.count : 0`
(`api_adapter.js` line 239). -/
def countOf (d : JVal) : JVal :=
  if truthy d then
    match getField d "count" with
    | JVal.num n => JVal.num n
    | _ => JVal.num 0
  else JVal.num 0

/-- Spec-side description of the query pairs a read's URL carries: the
recognized option keys, in order, restricted to values that are neither
null/undefined nor empty after string coercion and trimming, each paired
with its trimmed string coercion.  To be compared with the imperative
`_qs` (skip-and-set over `URLSearchParams`). -/
def specQueryPairs (params : List (String × JVal)) : List (String × String) :=
  params.filterMap (fun kv =>
    if nullish kv.snd then none
    else if jsTrim (jsToString kv.snd) = "" then none
    else some (kv.fst, jsTrim (jsToString kv.snd)))

/-- Models `ApiAdapter.getExpenses` (`api_adapter.js` lines 37-46). -/
def ApiAdapter.getExpenses (http : HttpReq → Except String JVal) (opts : JVal) :
    List HttpReq × Except String JVal :=
  let o := toRecord opts
  let req : HttpReq :=
    { path := "/expenses/api/expenses",
      query := _qs [("from", getField o "from"), ("to", getField o "to"),
        ("category", getField o "category"), ("limit", getField o "limit")],
      method := "GET", body := none }
  ([req], (http req).map itemsOf)

/-- Models `ApiAdapter.getSuppliers` (`api_adapter.js` lines 56-59): takes
no options and appends no query string. -/
def ApiAdapter.getSuppliers (http : HttpReq → Except String JVal) :
    List HttpReq × Except String JVal :=
  let req : HttpReq :=
    { path := "/suppliers/api/suppliers", query := [], method := "GET", body := none }
  ([req], (http req).map itemsOf)

/-- Models `ApiAdapter.getEmployees` (`api_adapter.js` lines 69-72): takes
no options and appends no query string. -/
def ApiAdapter.getEmployees (http : HttpReq → Except String JVal) :
    List HttpReq × Except String JVal :=
  let req : HttpReq :=
    { path := "/employees/api/employees", query := [], method := "GET", body := none }
  ([req], (http req).map itemsOf)

/-- Models `ApiAdapter.getCustomers` (`api_adapter.js` lines 82-89). -/
def ApiAdapter.getCustomers (http : HttpReq → Except String JVal) (opts : JVal) :
    List HttpReq × Except String JVal :=
  let o := toRecord opts
  let req : HttpReq :=
    { path := "/customers/api/customers",
      query := _qs [("q", getField o "q"), ("limit", getField o "limit")],
      method := "GET", body := none }
  ([req], (http req).map itemsOf)

/-- Models `ApiAdapter.getExpenseCategories` (`api_adapter.js` lines
99-102): takes no options and appends no query string. -/
def ApiAdapter.getExpenseCategories (http : HttpReq → Except String JVal) :
    List HttpReq × Except String JVal :=
  let req : HttpReq :=
    { path := "/expenses/api/categories", query := [], method := "GET", body := none }
  ([req], (http req).map itemsOf)

/-- Models `ApiAdapter.getInventoryLots` (`api_adapter.js` lines 153-160),
with the `o.limit || 10000` default. -/
def ApiAdapter.getInventoryLots (http : HttpReq → Except String JVal) (opts : JVal) :
    List HttpReq × Except String JVal :=
  let o := toRecord opts
  let req : HttpReq :=
    { path := "/inventory/api/lots",
      query := _qs
        [("limit", if truthy (getField o "limit") then getField o "limit" else JVal.num 10000),
         ("product_id", getField o "product_id")],
      method := "GET", body := none }
  ([req], (http req).map itemsOf)

/-- Models `ApiAdapter.getSales` (`api_adapter.js` lines 181-191). -/
def ApiAdapter.getSales (http : HttpReq → Except String JVal) (opts : JVal) :
    List HttpReq × Except String JVal :=
  let o := toRecord opts
  let req : HttpReq :=
    { path := "/sales/api/sales",
      query := _qs [("from", getField o "from"), ("to", getField o "to"),
        ("include_replaced", getField o "include_replaced"),
        ("exclude_cc", getField o "exclude_cc"), ("limit", getField o "limit")],
      method := "GET", body := none }
  ([req], (http req).map itemsOf)

/-- Models `ApiAdapter.getCashCounts` (`api_adapter.js` lines 225-232). -/
def ApiAdapter.getCashCounts (http : HttpReq → Except String JVal) (opts : JVal) :
    List HttpReq × Except String JVal :=
  let o := toRecord opts
  let req : HttpReq :=
    { path := "/movements/api/cash-counts",
      query := _qs [("from", getField o "from"), ("to", getField o "to")],
      method := "GET", body := none }
  ([req], (http req).map itemsOf)

/-- Models `ApiAdapter.getOverdueCustomersCount` (`api_adapter.js` lines
234-240): one read returning the numeric `count` of the decoded body, 0
when absent or non-numeric. -/
def ApiAdapter.getOverdueCustomersCount (http : HttpReq → Except String JVal) (opts : JVal) :
    List HttpReq × Except String JVal :=
  let o := toRecord opts
  let req : HttpReq :=
    { path := "/sales/api/sales/overdue-customers",
      query := _qs [("days", getField o "days")],
      method := "GET", body := none }
  ([req], (http req).map countOf)

/-- The lot record `addInventoryLot` appends: the record-coerced lot with
its assigned identifier `safeStr(l.id || nowTs())`. -/
def StorageService.lotPayload (now : Int) (lot : JVal) : JVal :=
  setField (toRecord lot) "id"
    (JVal.str (safeStr (if truthy (getField (toRecord lot) "id") then
      getField (toRecord lot) "id" else JVal.num now)))

/-- The expense `addInventoryLot` hands to `addExpenseFromInventory`: the
supplied payload with `origin_ref` pointed at the new lot's product and
identifier, movement reference left null. -/
def StorageService.lotExpenseArg (now : Int) (lot expensePayload : JVal) : JVal :=
  setField expensePayload "origin_ref"
    (canonicalRef (orNull (getField (StorageService.lotPayload now lot) "product_id"))
      (getField (StorageService.lotPayload now lot) "id") JVal.null)

/-- The canonical shape `normalizeExpense` establishes: an object whose
`origin` is one of the two enumerated strings, whose `created_at` is
numeric, and whose `origin_ref` is the three-key record with no
`undefined` component. -/
def NormalizedShape (v : JVal) : Prop :=
  ∃ fs p l m n,
    v = JVal.obj fs ∧
    (lookupKey fs "origin" = some (JVal.str "manual") ∨
      lookupKey fs "origin" = some (JVal.str "inventory")) ∧
    lookupKey fs "created_at" = some (JVal.num n) ∧
    lookupKey fs "origin_ref" = some (canonicalRef p l m) ∧
    p ≠ JVal.undefined ∧ l ≠ JVal.undefined ∧ m ≠ JVal.undefined

/-- An http oracle on which every request fails. -/
def httpFail : HttpReq → Except String JVal := fun _ => Except.error "network error"

/-- An adapter exposing none of the optional capabilities. -/
def emptyAdapter : Adapter :=
  { getEmployees := none, saveEmployees := none,
    getInventoryMovements := none, saveInventoryMovements := none,
    getCashCounts := none, getOverdueCustomersCount := none }

theorem JArr.toList_ofList (l : List JVal) : (JArr.ofList l).toList = l := by
  induction l with
  | nil => rfl
  | cons x tl ih => simp [JArr.ofList, JArr.toList, ih]

theorem ensureArray_jarr (xs : List JVal) : ensureArray (jarr xs) = xs := by
  simp [ensureArray, jarr, JArr.toList_ofList]

theorem getField_obj (fs : List (String × JVal)) (k : String) :
    getField (JVal.obj fs) k = (lookupKey fs k).getD .undefined := rfl

theorem lookupKey_setKey_self (fs : List (String × JVal)) (k : String) (v : JVal) :
    lookupKey (setKey fs k v) k = some v := by
  induction fs with
  | nil => simp [setKey, lookupKey]
  | cons kv rest ih =>
      by_cases h : kv.fst = k <;> simp [setKey, lookupKey, h, ih]

theorem lookupKey_setKey_ne (fs : List (String × JVal)) {k k' : String} (v : JVal)
    (h : k' ≠ k) : lookupKey (setKey fs k v) k' = lookupKey fs k' := by
  have hk' : ¬ k = k' := fun he => h he.symm
  induction fs with
  | nil => simp [setKey, lookupKey, hk']
  | cons kv rest ih =>
      by_cases hk : kv.fst = k
      · simp [setKey, hk, lookupKey, hk']
      · simp [setKey, hk, lookupKey, ih]

theorem setKey_of_lookup {fs : List (String × JVal)} {k : String} {v : JVal}
    (h : lookupKey fs k = some v) : setKey fs k v = fs := by
  induction fs with
  | nil => simp [lookupKey] at h
  | cons kv rest ih =>
      by_cases hk : kv.fst = k
      · simp [lookupKey, hk] at h
        simp only [setKey, hk, if_true, List.cons.injEq, and_true]
        exact (Prod.ext hk h).symm
      · simp [lookupKey, hk] at h
        simp [setKey, hk, ih h]

theorem orNull_ne_undefined (v : JVal) : orNull v ≠ JVal.undefined := by
  cases v <;> simp [orNull, nullish]

theorem orNull_of_ne_undefined {v : JVal} (h : v ≠ JVal.undefined) : orNull v = v := by
  cases v <;> first | rfl | exact absurd rfl h

theorem truthy_obj (fs : List (String × JVal)) : truthy (JVal.obj fs) = true := rfl

theorem isObjLike_obj (fs : List (String × JVal)) : isObjLike (JVal.obj fs) = true := rfl

theorem truthy_canonicalRef (p l m : JVal) : truthy (canonicalRef p l m) = true := rfl

theorem isObjLike_canonicalRef (p l m : JVal) : isObjLike (canonicalRef p l m) = true := rfl

theorem strEq_str (s t : String) : strEq (JVal.str s) t = (s == t) := rfl

theorem getField_canonicalRef_pid (p l m : JVal) :
    getField (canonicalRef p l m) "product_id" = p := by
  simp [canonicalRef, getField, lookupKey]

theorem getField_canonicalRef_lid (p l m : JVal) :
    getField (canonicalRef p l m) "lot_id" = l := by
  simp [canonicalRef, getField, lookupKey]

theorem getField_canonicalRef_mid (p l m : JVal) :
    getField (canonicalRef p l m) "inventory_movement_id" = m := by
  simp [canonicalRef, getField, lookupKey]

theorem map_eq_self_of_fix {f : JVal → JVal} {l : List JVal}
    (h : ∀ a ∈ l, f a = a) : l.map f = l := by
  induction l with
  | nil => rfl
  | cons x tl ih =>
      simp only [List.map_cons, h x (by simp), List.cons.injEq, true_and]
      exact ih fun a ha => h a (by simp [ha])

theorem shape_build (E : List (String × JVal)) (O R C : JVal)
    (hO : O = JVal.str "manual" ∨ O = JVal.str "inventory")
    (hC : ∃ n, C = JVal.num n)
    (hR : ∃ p l m, R = canonicalRef p l m ∧ p ≠ JVal.undefined ∧ l ≠ JVal.undefined ∧ m ≠ JVal.undefined) :
    NormalizedShape
      (JVal.obj (setKey (setKey (setKey E "origin" O) "origin_ref" R) "created_at" C)) := by
  obtain ⟨n, rfl⟩ := hC
  obtain ⟨p, l, m, rfl, hp, hl, hm⟩ := hR
  refine ⟨_, p, l, m, n, rfl, ?_, ?_, ?_, hp, hl, hm⟩
  · rw [lookupKey_setKey_ne _ _ (by decide), lookupKey_setKey_ne _ _ (by decide),
      lookupKey_setKey_self]
    rcases hO with h | h <;> simp [h]
  · exact lookupKey_setKey_self ..
  · rw [lookupKey_setKey_ne _ _ (by decide), lookupKey_setKey_self]

theorem normalizeExpense_shape (now : Int) (x : JVal) :
    NormalizedShape (normalizeExpense now x) := by
  simp only [normalizeExpense]
  apply shape_build
  · by_cases h : strEq
      (if strEq (getField (if truthy x && isObjLike x then x else JVal.obj []) "origin") "inventory" ||
          strEq (getField (if truthy x && isObjLike x then x else JVal.obj []) "origin") "manual" then
        getField (if truthy x && isObjLike x then x else JVal.obj []) "origin"
      else
        if strEq (getField (if truthy x && isObjLike x then x else JVal.obj []) "origin") "Inventory" ||
            strEq (getField (if truthy x && isObjLike x then x else JVal.obj []) "origin") "Desde Inventario" ||
            strEq (getField (if truthy x && isObjLike x then x else JVal.obj []) "origin") "InventoryOrigin" then
          JVal.str "inventory"
        else
          if truthy (getField (if truthy x && isObjLike x then x else JVal.obj []) "origin") then
            JVal.str (safeStr (getField (if truthy x && isObjLike x then x else JVal.obj []) "origin"))
          else JVal.str "manual") "inventory" <;>
      simp [h]
  · rcases hca : getField (if truthy x && isObjLike x then x else JVal.obj []) "created_at" <;>
      exact ⟨_, rfl⟩
  · exact ⟨_, _, _, rfl, orNull_ne_undefined _, orNull_ne_undefined _, orNull_ne_undefined _⟩

theorem normalizeExpense_fix (now : Int) {v : JVal} (h : NormalizedShape v) :
    normalizeExpense now v = v := by
  obtain ⟨fs, p, l, m, n, rfl, ho, hc, hr, hp, hl, hm⟩ := h
  rcases ho with ho | ho <;>
    simp only [normalizeExpense, truthy_obj, isObjLike_obj, Bool.and_self, if_true,
      getField_obj, ho, hc, hr, Option.getD_some, spreadFields,
      truthy_canonicalRef, isObjLike_canonicalRef,
      getField_canonicalRef_pid, getField_canonicalRef_lid, getField_canonicalRef_mid,
      orNull_of_ne_undefined hp, orNull_of_ne_undefined hl, orNull_of_ne_undefined hm, strEq_str] <;>
    norm_num
  · rw [if_neg (by decide), setKey_of_lookup ho, setKey_of_lookup hr, setKey_of_lookup hc]
  · rw [if_pos (by decide), setKey_of_lookup ho, setKey_of_lookup hr, setKey_of_lookup hc]

theorem normalizeExpense_createdAt (now : Int) (x : JVal) :
    getField (normalizeExpense now x) "created_at" =
      (match getField (toRecord x) "created_at" with
       | JVal.num n => JVal.num n
       | _ => JVal.num now) := by
  simp only [toRecord, normalizeExpense]
  rw [getField_obj, lookupKey_setKey_self, Option.getD_some]

theorem refComponent (orf : JVal) (k : String)
    (hdflt : getField (canonicalRef JVal.null JVal.null JVal.null) k = JVal.null) :
    orNull (getField (if truthy orf && isObjLike orf then orf
        else canonicalRef JVal.null JVal.null JVal.null) k)
      = orNull (getField orf k) := by
  by_cases h : (truthy orf && isObjLike orf) = true
  · rw [if_pos h]
  · rw [if_neg h, hdflt]
    have h2 : getField orf k = JVal.undefined := by
      cases orf <;> first | rfl | (simp [truthy, isObjLike] at h)
    rw [h2]
    rfl

theorem normalizeExpense_originRef (now : Int) (x : JVal) :
    getField (normalizeExpense now x) "origin_ref" =
      canonicalRef
        (orNull (getField (getField (toRecord x) "origin_ref") "product_id"))
        (orNull (getField (getField (toRecord x) "origin_ref") "lot_id"))
        (orNull (getField (getField (toRecord x) "origin_ref") "inventory_movement_id")) := by
  simp only [toRecord, normalizeExpense]
  rw [getField_obj, lookupKey_setKey_ne _ _ (by decide), lookupKey_setKey_self, Option.getD_some,
    refComponent _ _ (getField_canonicalRef_pid JVal.null JVal.null JVal.null),
    refComponent _ _ (getField_canonicalRef_lid JVal.null JVal.null JVal.null),
    refComponent _ _ (getField_canonicalRef_mid JVal.null JVal.null JVal.null)]

theorem originNorm_cases (eo : JVal) :
    (if strEq (if strEq eo "inventory" || strEq eo "manual" then eo
        else if strEq eo "Inventory" || strEq eo "Desde Inventario" || strEq eo "InventoryOrigin" then
          JVal.str "inventory"
        else if truthy eo then JVal.str (safeStr eo) else JVal.str "manual") "inventory"
      then JVal.str "inventory" else JVal.str "manual")
    = (if strEq eo "Inventory" || strEq eo "Desde Inventario" || strEq eo "InventoryOrigin" then
        JVal.str "inventory"
       else if truthy eo && (safeStr eo == "inventory") then JVal.str "inventory"
       else JVal.str "manual") := by
  cases eo with
  | str s =>
      by_cases h1 : s = "inventory" <;> by_cases h2 : s = "manual" <;>
        by_cases h3 : s = "Inventory" <;> by_cases h4 : s = "Desde Inventario" <;>
        by_cases h5 : s = "InventoryOrigin" <;> by_cases h6 : s = "" <;>
        simp_all [strEq_str, safeStr, nullish, jsToString, truthy]
  | undefined => simp [strEq, truthy]
  | null => simp [strEq, truthy]
  | bool b => cases b <;> simp [strEq, truthy, safeStr, nullish, jsToString]
  | num n =>
      by_cases ht : (n != 0) = true <;>
        simp [strEq, truthy, ht, strEq_str, safeStr, nullish]
  | arr a =>
      by_cases hv : (safeStr (JVal.arr a) == "inventory") = true <;>
        simp [strEq, truthy, strEq_str, hv]
  | obj fs => simp [strEq, truthy, strEq_str, safeStr, nullish, jsToString]

theorem normalizeExpense_origin (now : Int) (x : JVal) :
    getField (normalizeExpense now x) "origin" =
      (if strEq (getField (toRecord x) "origin") "Inventory"
          || strEq (getField (toRecord x) "origin") "Desde Inventario"
          || strEq (getField (toRecord x) "origin") "InventoryOrigin" then JVal.str "inventory"
       else if truthy (getField (toRecord x) "origin")
           && (safeStr (getField (toRecord x) "origin") == "inventory") then JVal.str "inventory"
       else JVal.str "manual") := by
  simp only [toRecord, normalizeExpense]
  rw [getField_obj, lookupKey_setKey_ne _ _ (by decide), lookupKey_setKey_ne _ _ (by decide),
    lookupKey_setKey_self, Option.getD_some]
  exact originNorm_cases _

/-- Claim C2: expense normalization is idempotent — renormalizing a
normalized expense, even at a later current time, returns it unchanged —
and in particular the numeric `created_at` the first normalization
assigned is not changed by renormalization. -/
theorem normalizeExpense_idempotent (now later : Int) (x : JVal) :
    normalizeExpense later (normalizeExpense now x) = normalizeExpense now x ∧
    ∃ n, getField (normalizeExpense now x) "created_at" = JVal.num n ∧
      getField (normalizeExpense later (normalizeExpense now x)) "created_at" = JVal.num n := by
  have hfix := normalizeExpense_fix later (normalizeExpense_shape now x)
  refine ⟨hfix, ?_⟩
  obtain ⟨fs, p, l, m, n, heq, ho, hc, hr, _⟩ := normalizeExpense_shape now x
  refine ⟨n, ?_, ?_⟩
  · rw [heq, getField_obj, hc]
    rfl
  · rw [hfix, heq, getField_obj, hc]
    rfl

/-- Claim C3, counterexample: the input `{origin: ['inventory']}` carries
an origin that is none of the two canonical strings and none of the three
recognized alias spellings (it is not even a string), yet normalization
yields `origin: "inventory"` rather than `"manual"`, because the code
string-coerces the truthy non-alias value and the one-element array
`['inventory']` coerces to the string `'inventory'`. -/
theorem normalizeExpense_origin_alias_cex :
    getField (normalizeExpense 0 (JVal.obj [("origin", jarr [JVal.str "inventory"])])) "origin"
      = JVal.str "inventory" ∧
    strEq (jarr [JVal.str "inventory"]) "inventory" = false ∧
    strEq (jarr [JVal.str "inventory"]) "manual" = false ∧
    strEq (jarr [JVal.str "inventory"]) "Inventory" = false ∧
    strEq (jarr [JVal.str "inventory"]) "Desde Inventario" = false ∧
    strEq (jarr [JVal.str "inventory"]) "InventoryOrigin" = false := by
  exact ⟨rfl, rfl, rfl, rfl, rfl, rfl⟩

/-- Claim C3, amended: the normalized `origin` is always exactly
`"manual"` or `"inventory"`; it is `"inventory"` precisely when the input
origin is one of the recognized alias spellings, or is truthy and
string-coerces (via `safeStr`) to `"inventory"` — which covers the exact
string `"inventory"` itself and also non-string values such as
`['inventory']`; every other input, including a missing origin, yields
`"manual"`. -/
theorem normalizeExpense_origin_spec (now : Int) (x : JVal) :
    (getField (normalizeExpense now x) "origin" = JVal.str "manual" ∨
      getField (normalizeExpense now x) "origin" = JVal.str "inventory") ∧
    (getField (normalizeExpense now x) "origin" = JVal.str "inventory" ↔
      (strEq (getField (toRecord x) "origin") "Inventory"
        || strEq (getField (toRecord x) "origin") "Desde Inventario"
        || strEq (getField (toRecord x) "origin") "InventoryOrigin") = true ∨
      (truthy (getField (toRecord x) "origin") = true ∧
        safeStr (getField (toRecord x) "origin") = "inventory")) := by
  rw [normalizeExpense_origin]
  by_cases h1 : (strEq (getField (toRecord x) "origin") "Inventory"
      || strEq (getField (toRecord x) "origin") "Desde Inventario"
      || strEq (getField (toRecord x) "origin") "InventoryOrigin") = true
  · simp [h1]
  · by_cases h2 : (truthy (getField (toRecord x) "origin")
        && (safeStr (getField (toRecord x) "origin") == "inventory")) = true <;>
      simp only [Bool.and_eq_true, beq_iff_eq] at h2 <;>
      simp [h1, h2]

/-- Claim C4: the normalized `origin_ref` is a record with exactly the
three keys `product_id`, `lot_id`, `inventory_movement_id`; each key holds
the input `origin_ref`'s corresponding value when that is present and not
null/undefined, and `null` otherwise — in particular whenever the input's
`origin_ref` is missing or not record-shaped, since a property read on a
non-record yields `undefined`. -/
theorem normalizeExpense_originRef_spec (now : Int) (x : JVal) :
    getField (normalizeExpense now x) "origin_ref" =
      JVal.obj
        [("product_id", orNull (getField (getField (toRecord x) "origin_ref") "product_id")),
         ("lot_id", orNull (getField (getField (toRecord x) "origin_ref") "lot_id")),
         ("inventory_movement_id",
           orNull (getField (getField (toRecord x) "origin_ref") "inventory_movement_id"))] :=
  normalizeExpense_originRef now x

theorem shape_setField_id {v : JVal} (h : NormalizedShape v) (s : String) :
    NormalizedShape (setField v "id" (JVal.str s)) := by
  obtain ⟨fs, p, l, m, n, rfl, ho, hc, hr, hp, hl, hm⟩ := h
  refine ⟨setKey fs "id" (JVal.str s), p, l, m, n, rfl, ?_, ?_, ?_, hp, hl, hm⟩
  · rw [lookupKey_setKey_ne _ _ (by decide)]
    exact ho
  · rw [lookupKey_setKey_ne _ _ (by decide)]
    exact hc
  · rw [lookupKey_setKey_ne _ _ (by decide)]
    exact hr

theorem shape_fields {v : JVal} (h : NormalizedShape v) :
    (getField v "origin" = JVal.str "manual" ∨ getField v "origin" = JVal.str "inventory") ∧
    (∃ p l m, getField v "origin_ref" = canonicalRef p l m) ∧
    (∃ n, getField v "created_at" = JVal.num n) := by
  obtain ⟨fs, p, l, m, n, rfl, ho, hc, hr, _⟩ := h
  refine ⟨?_, ⟨p, l, m, ?_⟩, ⟨n, ?_⟩⟩
  · rcases ho with ho | ho
    · left
      rw [getField_obj, ho]
      rfl
    · right
      rw [getField_obj, ho]
      rfl
  · rw [getField_obj, hr]
    rfl
  · rw [getField_obj, hc]
    rfl

theorem upsertExpense_eq (now : Int) (res expense : JVal) :
    StorageService.upsertExpense now res expense =
      (match findIndexJ
          (fun x => safeStr (optField x "id") == StorageService.upsertId now expense)
          ((ensureArray res).map (normalizeExpense now)) with
       | some i =>
           ((ensureArray res).map (normalizeExpense now)).set i
             (setField (normalizeExpense now expense) "id"
               (JVal.str (StorageService.upsertId now expense)))
       | none =>
           (ensureArray res).map (normalizeExpense now)
             ++ [setField (normalizeExpense now expense) "id"
                 (JVal.str (StorageService.upsertId now expense))]) := by
  have hnext1 : NormalizedShape
      (setField (normalizeExpense now expense) "id"
        (JVal.str (StorageService.upsertId now expense))) :=
    shape_setField_id (normalizeExpense_shape now expense) _
  simp only [StorageService.upsertExpense, StorageService.saveExpenses]
  rcases h : findIndexJ
      (fun x => safeStr (optField x "id") == StorageService.upsertId now expense)
      ((ensureArray res).map (normalizeExpense now)) with _ | i <;>
    simp only [h] <;>
    rw [ensureArray_jarr] <;>
    apply map_eq_self_of_fix <;>
    intro a ha
  · rcases List.mem_append.mp ha with ha | ha
    · rcases List.mem_map.mp ha with ⟨z, _, rfl⟩
      exact normalizeExpense_fix now (normalizeExpense_shape now z)
    · rw [List.mem_singleton.mp ha]
      exact normalizeExpense_fix now hnext1
  · rcases List.mem_or_eq_of_mem_set ha with ha | ha
    · rcases List.mem_map.mp ha with ⟨z, _, rfl⟩
      exact normalizeExpense_fix now (normalizeExpense_shape now z)
    · rw [ha]
      exact normalizeExpense_fix now hnext1

/-- Claim C1: Upsert assigns the entity's identifier — the existing
identifier (stringified) when it is a present, non-empty string, else the
current timestamp stringified — then, when the current collection (as the
facade reads it: `ensureArray` of the adapter's response, normalized)
contains an entry whose identifier stringifies equal to that identifier,
replaces that (first matching) entry in place by `List.set`, preserving
order and size, and otherwise appends the entity at the end; the value of
`StorageService.upsertExpense` is exactly the full collection written back
through `saveExpenses`. -/
theorem upsertExpense_spec (now : Int) (res expense : JVal) :
    (∀ s, getField (normalizeExpense now expense) "id" = JVal.str s → s ≠ "" →
        StorageService.upsertId now expense = s) ∧
    ((getField (normalizeExpense now expense) "id" = JVal.undefined ∨
      getField (normalizeExpense now expense) "id" = JVal.null ∨
      getField (normalizeExpense now expense) "id" = JVal.str "") →
        StorageService.upsertId now expense = toString now) ∧
    (match findIndexJ
        (fun x => safeStr (optField x "id") == StorageService.upsertId now expense)
        ((ensureArray res).map (normalizeExpense now)) with
     | some i =>
         StorageService.upsertExpense now res expense
           = ((ensureArray res).map (normalizeExpense now)).set i
               (setField (normalizeExpense now expense) "id"
                 (JVal.str (StorageService.upsertId now expense))) ∧
         (StorageService.upsertExpense now res expense).length
           = ((ensureArray res).map (normalizeExpense now)).length
     | none =>
         StorageService.upsertExpense now res expense
           = (ensureArray res).map (normalizeExpense now)
             ++ [setField (normalizeExpense now expense) "id"
                 (JVal.str (StorageService.upsertId now expense))]) := by
  refine ⟨?_, ?_, ?_⟩
  · intro s hs hne
    simp only [StorageService.upsertId]
    rw [hs]
    simp [truthy, hne, safeStr, nullish, jsToString]
  · intro h
    simp only [StorageService.upsertId]
    rcases h with h | h | h <;> rw [h] <;> rfl
  · rcases h : findIndexJ
        (fun x => safeStr (optField x "id") == StorageService.upsertId now expense)
        ((ensureArray res).map (normalizeExpense now)) with _ | i <;>
      simp only [h] <;>
      have he := upsertExpense_eq now res expense <;>
      rw [h] at he
    · exact he
    · exact ⟨he, by rw [he, List.length_set]⟩

/-- Claim C1, witness: upserting `{id:"e1", amount:10}` against an empty
collection keeps the id `"e1"` and writes the one-element collection
holding the normalized entity. -/
theorem upsertExpense_spec_witness :
    StorageService.upsertId 5 (JVal.obj [("id", JVal.str "e1"), ("amount", JVal.num 10)])
      = "e1" ∧
    StorageService.upsertExpense 5 (jarr [])
        (JVal.obj [("id", JVal.str "e1"), ("amount", JVal.num 10)])
      = [setField (normalizeExpense 5 (JVal.obj [("id", JVal.str "e1"), ("amount", JVal.num 10)]))
          "id" (JVal.str "e1")] := by
  have h := upsertExpense_spec 5 (jarr [])
    (JVal.obj [("id", JVal.str "e1"), ("amount", JVal.num 10)])
  have hid : StorageService.upsertId 5
      (JVal.obj [("id", JVal.str "e1"), ("amount", JVal.num 10)]) = "e1" :=
    h.1 "e1" rfl (by decide)
  refine ⟨hid, ?_⟩
  have h3 := h.2.2
  rw [hid] at h3
  exact h3

/-- Claim C10: the collection the facade's `saveExpenses` hands to the
bound adapter is the empty collection for non-array input, is the
element-wise normalization of an array input, and every element of it
satisfies the Expense invariants: canonical `origin`, three-key
`origin_ref`, numeric `created_at`. -/
theorem saveExpenses_normalized (now : Int) (x : JVal) :
    (isArr x = false → StorageService.saveExpenses now x = []) ∧
    (∀ xs, x = jarr xs → StorageService.saveExpenses now x = xs.map (normalizeExpense now)) ∧
    ∀ y ∈ StorageService.saveExpenses now x,
      (getField y "origin" = JVal.str "manual" ∨ getField y "origin" = JVal.str "inventory") ∧
      (∃ p l m, getField y "origin_ref" = canonicalRef p l m) ∧
      (∃ n, getField y "created_at" = JVal.num n) := by
  refine ⟨?_, ?_, ?_⟩
  · intro h
    unfold StorageService.saveExpenses
    cases x <;> simp_all [isArr, ensureArray]
  · intro xs hx
    subst hx
    unfold StorageService.saveExpenses
    rw [ensureArray_jarr]
  · intro y hy
    obtain ⟨z, _, rfl⟩ := List.mem_map.mp hy
    exact shape_fields (normalizeExpense_shape now z)

/-- Claim C10, witness: at `now = 3` and input `[{}]` the adapter receives
the singleton normalized expense, which satisfies the three invariants. -/
theorem saveExpenses_normalized_witness :
    StorageService.saveExpenses 3 (jarr [JVal.obj []]) = [normalizeExpense 3 (JVal.obj [])] ∧
    ((getField (normalizeExpense 3 (JVal.obj [])) "origin" = JVal.str "manual" ∨
      getField (normalizeExpense 3 (JVal.obj [])) "origin" = JVal.str "inventory") ∧
     (∃ p l m, getField (normalizeExpense 3 (JVal.obj [])) "origin_ref" = canonicalRef p l m) ∧
     (∃ n, getField (normalizeExpense 3 (JVal.obj [])) "created_at" = JVal.num n)) := by
  have h := saveExpenses_normalized 3 (jarr [JVal.obj []])
  have hs : StorageService.saveExpenses 3 (jarr [JVal.obj []])
      = [normalizeExpense 3 (JVal.obj [])] := h.2.1 [JVal.obj []] rfl
  refine ⟨hs, h.2.2 _ ?_⟩
  rw [hs]
  simp

theorem orNull_orNull (v : JVal) : orNull (orNull v) = orNull v := by
  cases v <;> rfl

theorem getField_setField_self (v : JVal) (k : String) (w : JVal) :
    getField (setField v k w) k = w := by
  simp [setField, getField_obj, lookupKey_setKey_self]

theorem getField_setField_ne_obj {v : JVal} (hv : ∃ fs, v = JVal.obj fs)
    {k k' : String} (w : JVal) (h : k' ≠ k) :
    getField (setField v k w) k' = getField v k' := by
  obtain ⟨fs, rfl⟩ := hv
  simp [setField, spreadFields, getField_obj, lookupKey_setKey_ne _ _ h]

theorem addExpenseFromInventory_fresh (now : Int) (res expense : JVal)
    (hfresh : findIndexJ
        (fun x => safeStr (optField x "id")
          == StorageService.upsertId now
              (normalizeExpense now (setField expense "origin" (JVal.str "inventory"))))
        ((ensureArray res).map (normalizeExpense now)) = none) :
    StorageService.addExpenseFromInventory now res expense
      = (ensureArray res).map (normalizeExpense now)
        ++ [setField (normalizeExpense now (setField expense "origin" (JVal.str "inventory"))) "id"
            (JVal.str (StorageService.upsertId now
              (normalizeExpense now (setField expense "origin" (JVal.str "inventory")))))] := by
  simp only [StorageService.addExpenseFromInventory]
  rw [upsertExpense_eq, hfresh,
    normalizeExpense_fix now
      (normalizeExpense_shape now (setField expense "origin" (JVal.str "inventory")))]

/-- Claim C9: with a record-shaped expense payload, and when the assigned
expense identifier matches no entry of the current expenses collection,
`addInventoryLot` appends exactly one new lot — the record-coerced lot
carrying its assigned string identifier — to the lots collection, and
appends exactly one new expense to the expenses collection whose `origin`
is `"inventory"` and whose `origin_ref` has `product_id` taken from the
new lot (coalesced to null), `lot_id` equal to the new lot's assigned
identifier, and `inventory_movement_id` null. -/
theorem addInventoryLot_spec (now : Int) (lotsRes expensesRes lot expensePayload : JVal)
    (hexp : truthy expensePayload = true ∧ isObjLike expensePayload = true)
    (hfresh : findIndexJ
        (fun x => safeStr (optField x "id")
          == StorageService.upsertId now
              (normalizeExpense now
                (setField (StorageService.lotExpenseArg now lot expensePayload) "origin"
                  (JVal.str "inventory"))))
        ((ensureArray expensesRes).map (normalizeExpense now)) = none) :
    ∃ newExp lotId,
      StorageService.addInventoryLot now lotsRes expensesRes lot expensePayload
        = (ensureArray lotsRes ++ [StorageService.lotPayload now lot],
           some ((ensureArray expensesRes).map (normalizeExpense now) ++ [newExp])) ∧
      getField (StorageService.lotPayload now lot) "id" = JVal.str lotId ∧
      getField newExp "origin" = JVal.str "inventory" ∧
      getField newExp "origin_ref"
        = canonicalRef
            (orNull (getField (StorageService.lotPayload now lot) "product_id"))
            (JVal.str lotId) JVal.null := by
  obtain ⟨ht, ho⟩ := hexp
  have hexps := addExpenseFromInventory_fresh now expensesRes
    (StorageService.lotExpenseArg now lot expensePayload) hfresh
  have hE1obj : ∃ fs, normalizeExpense now
      (setField (StorageService.lotExpenseArg now lot expensePayload) "origin"
        (JVal.str "inventory")) = JVal.obj fs := by
    obtain ⟨fs, p, l, m, n, heq, _⟩ := normalizeExpense_shape now
      (setField (StorageService.lotExpenseArg now lot expensePayload) "origin"
        (JVal.str "inventory"))
    exact ⟨fs, heq⟩
  refine ⟨setField (normalizeExpense now
      (setField (StorageService.lotExpenseArg now lot expensePayload) "origin"
        (JVal.str "inventory"))) "id"
      (JVal.str (StorageService.upsertId now
        (normalizeExpense now
          (setField (StorageService.lotExpenseArg now lot expensePayload) "origin"
            (JVal.str "inventory"))))),
    safeStr (if truthy (getField (toRecord lot) "id") then getField (toRecord lot) "id"
      else JVal.num now), ?_, ?_, ?_, ?_⟩
  · simp only [StorageService.addInventoryLot, ht, ho, Bool.and_self, if_true,
      StorageService.lotPayload]
    simp only [StorageService.lotExpenseArg, StorageService.lotPayload] at hexps
    rw [hexps]
    simp only [StorageService.lotExpenseArg, StorageService.lotPayload]
  · simp only [StorageService.lotPayload]
    exact getField_setField_self _ _ _
  · rw [getField_setField_ne_obj hE1obj _ (by decide), normalizeExpense_origin]
    have h5 : getField (toRecord
        (setField (StorageService.lotExpenseArg now lot expensePayload) "origin"
          (JVal.str "inventory"))) "origin" = JVal.str "inventory" := by
      simp only [setField, toRecord, truthy_obj, isObjLike_obj, Bool.and_self, if_true]
      rw [getField_obj, lookupKey_setKey_self]
      rfl
    rw [h5]
    simp [strEq_str, truthy, safeStr, nullish, jsToString]
  · rw [getField_setField_ne_obj hE1obj _ (by decide), normalizeExpense_originRef]
    have hORF : getField (toRecord
        (setField (StorageService.lotExpenseArg now lot expensePayload) "origin"
          (JVal.str "inventory"))) "origin_ref"
        = canonicalRef (orNull (getField (StorageService.lotPayload now lot) "product_id"))
            (getField (StorageService.lotPayload now lot) "id") JVal.null := by
      simp only [StorageService.lotExpenseArg, setField, spreadFields, toRecord,
        truthy_obj, isObjLike_obj, Bool.and_self, if_true]
      rw [getField_obj, lookupKey_setKey_ne _ _ (by decide), lookupKey_setKey_self]
      rfl
    have hid2 : getField (StorageService.lotPayload now lot) "id"
        = JVal.str (safeStr (if truthy (getField (toRecord lot) "id") then
            getField (toRecord lot) "id" else JVal.num now)) := by
      simp only [StorageService.lotPayload]
      exact getField_setField_self _ _ _
    rw [hORF, getField_canonicalRef_pid, getField_canonicalRef_lid, getField_canonicalRef_mid,
      orNull_orNull, hid2]
    rfl

/-- Claim C9, witness: adding the lot `{product_id: 7}` with expense
payload `{amount: 10}` at time 0 against empty lots and expenses
collections appends one lot and one linked expense. -/
theorem addInventoryLot_spec_witness :
    (truthy (JVal.obj [("amount", JVal.num 10)]) = true ∧
      isObjLike (JVal.obj [("amount", JVal.num 10)]) = true) ∧
    findIndexJ
        (fun x => safeStr (optField x "id")
          == StorageService.upsertId 0
              (normalizeExpense 0
                (setField (StorageService.lotExpenseArg 0 (JVal.obj [("product_id", JVal.num 7)])
                    (JVal.obj [("amount", JVal.num 10)])) "origin" (JVal.str "inventory"))))
        ((ensureArray (jarr [])).map (normalizeExpense 0)) = none ∧
    ∃ newExp lotId,
      StorageService.addInventoryLot 0 (jarr []) (jarr []) (JVal.obj [("product_id", JVal.num 7)])
          (JVal.obj [("amount", JVal.num 10)])
        = (ensureArray (jarr [])
            ++ [StorageService.lotPayload 0 (JVal.obj [("product_id", JVal.num 7)])],
           some ((ensureArray (jarr [])).map (normalizeExpense 0) ++ [newExp])) ∧
      getField (StorageService.lotPayload 0 (JVal.obj [("product_id", JVal.num 7)])) "id"
        = JVal.str lotId ∧
      getField newExp "origin" = JVal.str "inventory" ∧
      getField newExp "origin_ref"
        = canonicalRef
            (orNull (getField (StorageService.lotPayload 0 (JVal.obj [("product_id", JVal.num 7)]))
              "product_id"))
            (JVal.str lotId) JVal.null :=
  ⟨⟨rfl, rfl⟩, rfl,
    addInventoryLot_spec 0 (jarr []) (jarr []) (JVal.obj [("product_id", JVal.num 7)])
      (JVal.obj [("amount", JVal.num 10)]) ⟨rfl, rfl⟩ rfl⟩

/-- Claim C7: a bound adapter lacking an optional capability (employees,
inventory movements, cash counts, overdue-customers count) makes the
corresponding facade read return the empty collection — or 0 for the
overdue count — and the corresponding facade write return undefined, in
both cases without any adapter call (the flag is false); all of these
facade operations are total functions, so none of them throws. -/
theorem capability_degradation (a : Adapter) (opts arr : JVal) :
    (a.getEmployees = none → StorageService.getEmployees a = (false, jarr [])) ∧
    (a.saveEmployees = none → StorageService.saveEmployees a arr = (false, JVal.undefined)) ∧
    (a.getInventoryMovements = none →
      StorageService.getInventoryMovements a opts = (false, jarr [])) ∧
    (a.saveInventoryMovements = none →
      StorageService.saveInventoryMovements a arr = (false, JVal.undefined)) ∧
    (a.getCashCounts = none → StorageService.getCashCounts a opts = (false, jarr [])) ∧
    (a.getOverdueCustomersCount = none →
      StorageService.getOverdueCustomersCount a opts = (false, JVal.num 0)) := by
  refine ⟨?_, ?_, ?_, ?_, ?_, ?_⟩ <;> intro h <;>
    simp [StorageService.getEmployees, StorageService.saveEmployees,
      StorageService.getInventoryMovements, StorageService.saveInventoryMovements,
      StorageService.getCashCounts, StorageService.getOverdueCustomersCount, h]

/-- Claim C7, witness: on the adapter exposing none of the optional
capabilities, all six facade operations degrade as stated. -/
theorem capability_degradation_witness :
    StorageService.getEmployees emptyAdapter = (false, jarr []) ∧
    StorageService.saveEmployees emptyAdapter (jarr []) = (false, JVal.undefined) ∧
    StorageService.getInventoryMovements emptyAdapter JVal.undefined = (false, jarr []) ∧
    StorageService.saveInventoryMovements emptyAdapter (jarr []) = (false, JVal.undefined) ∧
    StorageService.getCashCounts emptyAdapter JVal.undefined = (false, jarr []) ∧
    StorageService.getOverdueCustomersCount emptyAdapter JVal.undefined = (false, JVal.num 0) := by
  have h := capability_degradation emptyAdapter JVal.undefined (jarr [])
  exact ⟨h.1 rfl, h.2.1 rfl, h.2.2.1 rfl, h.2.2.2.1 rfl, h.2.2.2.2.1 rfl, h.2.2.2.2.2 rfl⟩

/-- Claim C6: for every http oracle and every input collection, the Remote
Adapter's `saveInventoryLots` and `saveInventoryMovements` issue no
request (empty request log) and return the input collection unchanged. -/
theorem saveLotsMovements_noop (http : HttpReq → Except String JVal) (xs : List JVal) :
    ApiAdapter.saveInventoryLots http (jarr xs) = ([], jarr xs) ∧
    ApiAdapter.saveInventoryMovements http (jarr xs) = ([], jarr xs) := by
  constructor <;>
    simp [ApiAdapter.saveInventoryLots, ApiAdapter.saveInventoryMovements, isArr, jarr]

theorem toRecord_of_objLike {v : JVal} (h : isObjLike v = true) : toRecord v = v := by
  cases v <;> simp_all [toRecord, truthy, isObjLike]

theorem setPair_not_mem (q : List (String × String)) (k : String) (v : String)
    (h : ∀ p ∈ q, p.fst ≠ k) : setPair q k v = q ++ [(k, v)] := by
  induction q with
  | nil => rfl
  | cons p rest ih =>
      have hp : p.fst ≠ k := h p (by simp)
      simp [setPair, hp, ih fun r hr => h r (by simp [hr])]

theorem _qs_go (params : List (String × JVal)) (acc : List (String × String))
    (hnd : (params.map Prod.fst).Nodup)
    (hdisj : ∀ p ∈ acc, ∀ q ∈ params, p.fst ≠ q.fst) :
    params.foldl (fun q kv =>
      if nullish kv.snd then q
      else if jsTrim (jsToString kv.snd) = "" then q
      else setPair q kv.fst (jsTrim (jsToString kv.snd))) acc
    = acc ++ params.filterMap (fun kv =>
        if nullish kv.snd then none
        else if jsTrim (jsToString kv.snd) = "" then none
        else some (kv.fst, jsTrim (jsToString kv.snd))) := by
  induction params generalizing acc with
  | nil => simp
  | cons kv rest ih =>
      simp only [List.map_cons, List.nodup_cons] at hnd
      obtain ⟨hni, hnd2⟩ := hnd
      simp only [List.foldl_cons, List.filterMap_cons]
      by_cases h1 : nullish kv.snd
      · rw [if_pos h1, if_pos h1,
          ih acc hnd2 fun p hp q hq => hdisj p hp q (List.mem_cons_of_mem _ hq)]
      · rw [if_neg h1, if_neg h1]
        by_cases h2 : jsTrim (jsToString kv.snd) = ""
        · rw [if_pos h2, if_pos h2,
            ih acc hnd2 fun p hp q hq => hdisj p hp q (List.mem_cons_of_mem _ hq)]
        · rw [if_neg h2, if_neg h2,
            setPair_not_mem acc kv.fst _ (fun p hp => hdisj p hp kv (by simp)),
            ih _ hnd2 ?_]
          · simp
          · intro p hp q hq
            rcases List.mem_append.mp hp with hp | hp
            · exact hdisj p hp q (List.mem_cons_of_mem _ hq)
            · rw [List.mem_singleton.mp hp]
              intro hfst
              exact hni (hfst ▸ List.mem_map_of_mem Prod.fst hq)

theorem _qs_eq (params : List (String × JVal)) (hnd : (params.map Prod.fst).Nodup) :
    _qs params = params.filterMap (fun kv =>
      if nullish kv.snd then none
      else if jsTrim (jsToString kv.snd) = "" then none
      else some (kv.fst, jsTrim (jsToString kv.snd))) := by
  have h := _qs_go params [] hnd (by simp)
  simpa [_qs] using h

/-- Claim C8, counterexample: `getInventoryProducts` called with an empty
options record — the caller supplied no `limit` — still issues its single
request with the query parameter `limit=5000`, because the adapter
substitutes the default `o.limit || 5000` before building the query
string; so a query parameter is appended for an option the caller did not
supply. -/
theorem getInventoryProducts_default_limit_cex :
    (ApiAdapter.getInventoryProducts httpFail (JVal.obj [])).fst.map HttpReq.query
      = [[("limit", "5000")]] ∧
    getField (JVal.obj []) "limit" = JVal.undefined := by
  exact ⟨rfl, rfl⟩

theorem _qs_eq_spec (params : List (String × JVal))
    (hnd : (params.map Prod.fst).Nodup) : _qs params = specQueryPairs params := by
  rw [_qs_eq params hnd]
  rfl

/-- Claim C8, amended: every Remote Adapter read issues one request whose
URL carries as query parameters exactly the recognized option keys whose
effective values are neither null/undefined nor empty after string
coercion and trimming, each as its trimmed string coercion in fixed key
order — where the effective `limit` of the inventory products, inventory
lots and inventory movements reads is the caller's limit when truthy and
otherwise the default `5000`, `10000`, `2000` respectively, so those
three reads carry a `limit` parameter even when the caller supplied none;
every other option contributes no parameter when the caller did not
supply it (a missing key reads as undefined and is skipped), and the
reads that recognize no options (suppliers, employees, expense
categories) carry no query parameters at all. -/
theorem getReads_query_spec (http : HttpReq → Except String JVal) (opts : JVal) :
    (ApiAdapter.getExpenses http opts).fst.map HttpReq.query
      = [specQueryPairs
          [("from", getField (toRecord opts) "from"),
           ("to", getField (toRecord opts) "to"),
           ("category", getField (toRecord opts) "category"),
           ("limit", getField (toRecord opts) "limit")]] ∧
    (ApiAdapter.getSuppliers http).fst.map HttpReq.query = [[]] ∧
    (ApiAdapter.getEmployees http).fst.map HttpReq.query = [[]] ∧
    (ApiAdapter.getExpenseCategories http).fst.map HttpReq.query = [[]] ∧
    (ApiAdapter.getCustomers http opts).fst.map HttpReq.query
      = [specQueryPairs
          [("q", getField (toRecord opts) "q"),
           ("limit", getField (toRecord opts) "limit")]] ∧
    (ApiAdapter.getInventoryProducts http opts).fst.map HttpReq.query
      = [specQueryPairs
          [("limit", if truthy (getField (toRecord opts) "limit") then
              getField (toRecord opts) "limit" else JVal.num 5000),
           ("active", getField (toRecord opts) "active")]] ∧
    (ApiAdapter.getInventoryLots http opts).fst.map HttpReq.query
      = [specQueryPairs
          [("limit", if truthy (getField (toRecord opts) "limit") then
              getField (toRecord opts) "limit" else JVal.num 10000),
           ("product_id", getField (toRecord opts) "product_id")]] ∧
    (ApiAdapter.getInventoryMovements http opts).fst.map HttpReq.query
      = [specQueryPairs
          [("from", getField (toRecord opts) "from"),
           ("to", getField (toRecord opts) "to"),
           ("product_id", getField (toRecord opts) "product_id"),
           ("limit", if truthy (getField (toRecord opts) "limit") then
              getField (toRecord opts) "limit" else JVal.num 2000)]] ∧
    (ApiAdapter.getSales http opts).fst.map HttpReq.query
      = [specQueryPairs
          [("from", getField (toRecord opts) "from"),
           ("to", getField (toRecord opts) "to"),
           ("include_replaced", getField (toRecord opts) "include_replaced"),
           ("exclude_cc", getField (toRecord opts) "exclude_cc"),
           ("limit", getField (toRecord opts) "limit")]] ∧
    (ApiAdapter.getCashCounts http opts).fst.map HttpReq.query
      = [specQueryPairs
          [("from", getField (toRecord opts) "from"),
           ("to", getField (toRecord opts) "to")]] ∧
    (ApiAdapter.getOverdueCustomersCount http opts).fst.map HttpReq.query
      = [specQueryPairs [("days", getField (toRecord opts) "days")]] := by
  refine ⟨?_, rfl, rfl, rfl, ?_, ?_, ?_, ?_, ?_, ?_, ?_⟩ <;>
  · simp only [ApiAdapter.getExpenses, ApiAdapter.getCustomers,
      ApiAdapter.getInventoryProducts, ApiAdapter.getInventoryLots,
      ApiAdapter.getInventoryMovements, ApiAdapter.getSales, ApiAdapter.getCashCounts,
      ApiAdapter.getOverdueCustomersCount, List.map_cons, List.map_nil]
    rw [_qs_eq_spec _ (by simp)]

theorem saveInventoryProductsLoop_spec (http : HttpReq → Except String JVal)
    (xs : List JVal) (hrec : ∀ x ∈ xs, isObjLike x = true) :
    (ApiAdapter.saveInventoryProductsLoop http xs).fst.length = xs.length ∧
    (ApiAdapter.saveInventoryProductsLoop http xs).snd.length = xs.length ∧
    ∀ i, i < xs.length →
      ((¬ nullish (getField (xs.getD i JVal.undefined) "id") ∧
          jsTrim (jsToString (getField (xs.getD i JVal.undefined) "id")) ≠ "" →
        (ApiAdapter.saveInventoryProductsLoop http xs).fst.getD i (HttpReq.mk "" [] "" none)
          = { path := "/inventory/api/products/"
                ++ encodeURIComponent (jsToString (getField (xs.getD i JVal.undefined) "id")),
              query := [], method := "PUT", body := some (xs.getD i JVal.undefined) }) ∧
       (nullish (getField (xs.getD i JVal.undefined) "id") ∨
          jsTrim (jsToString (getField (xs.getD i JVal.undefined) "id")) = "" →
        (ApiAdapter.saveInventoryProductsLoop http xs).fst.getD i (HttpReq.mk "" [] "" none)
          = { path := "/inventory/api/products", query := [], method := "POST",
              body := some (xs.getD i JVal.undefined) }) ∧
       (∀ e, http ((ApiAdapter.saveInventoryProductsLoop http xs).fst.getD i
            (HttpReq.mk "" [] "" none)) = Except.error e →
        (ApiAdapter.saveInventoryProductsLoop http xs).snd.getD i JVal.undefined
          = xs.getD i JVal.undefined)) := by
  induction xs with
  | nil => exact ⟨rfl, rfl, fun i hi => absurd hi (by simp)⟩
  | cons x rest ih =>
      have hx : isObjLike x = true := hrec x (List.mem_cons_self x rest)
      obtain ⟨ih1, ih2, ih3⟩ := ih fun z hz => hrec z (List.mem_cons_of_mem _ hz)
      have hstep : ApiAdapter.saveInventoryProductsLoop http (x :: rest)
          = ((if ¬ nullish (getField x "id") ∧ jsTrim (jsToString (getField x "id")) ≠ "" then
                { path := "/inventory/api/products/"
                    ++ encodeURIComponent (jsToString (getField x "id")),
                  query := [], method := "PUT", body := some x }
              else
                { path := "/inventory/api/products", query := [], method := "POST",
                  body := some x })
              :: (ApiAdapter.saveInventoryProductsLoop http rest).fst,
             (match http (if ¬ nullish (getField x "id")
                  ∧ jsTrim (jsToString (getField x "id")) ≠ "" then
                { path := "/inventory/api/products/"
                    ++ encodeURIComponent (jsToString (getField x "id")),
                  query := [], method := "PUT", body := some x }
              else
                { path := "/inventory/api/products", query := [], method := "POST",
                  body := some x }) with
              | Except.ok d =>
                  if truthy d && truthy (getField d "item") then getField d "item" else x
              | Except.error _ => x)
              :: (ApiAdapter.saveInventoryProductsLoop http rest).snd) := by
        simp only [ApiAdapter.saveInventoryProductsLoop, toRecord_of_objLike hx]
      rw [hstep]
      refine ⟨by simp [ih1], by simp [ih2], ?_⟩
      intro i hi
      cases i with
      | zero =>
          refine ⟨fun hcond => ?_, fun hcond => ?_, fun e he => ?_⟩
          · simp only [List.getD_cons_zero] at hcond ⊢
            rw [if_pos hcond]
          · simp only [List.getD_cons_zero] at hcond ⊢
            rw [if_neg (by rcases hcond with h | h; exacts [fun hc => hc.1 h, fun hc => hc.2 h])]
          · simp only [List.getD_cons_zero] at he ⊢
            rw [he]
      | succ j =>
          simp only [List.getD_cons_succ]
          exact ih3 j (Nat.lt_of_succ_lt_succ hi)

theorem saveSalesLoop_spec (http : HttpReq → Except String JVal)
    (ys : List JVal) (hrec : ∀ y ∈ ys, isObjLike y = true) :
    (ApiAdapter.saveSalesLoop http ys).fst.length = ys.length ∧
    (ApiAdapter.saveSalesLoop http ys).snd.length = ys.length ∧
    ∀ i, i < ys.length →
      ((¬ nullish (getField (ys.getD i JVal.undefined) "ticket") ∧
          jsTrim (jsToString (getField (ys.getD i JVal.undefined) "ticket")) ≠ "" →
        (ApiAdapter.saveSalesLoop http ys).fst.getD i (HttpReq.mk "" [] "" none)
          = { path := "/sales/api/sales/"
                ++ encodeURIComponent (jsToString (getField (ys.getD i JVal.undefined) "ticket")),
              query := [], method := "PUT", body := some (ys.getD i JVal.undefined) }) ∧
       (nullish (getField (ys.getD i JVal.undefined) "ticket") ∨
          jsTrim (jsToString (getField (ys.getD i JVal.undefined) "ticket")) = "" →
        (ApiAdapter.saveSalesLoop http ys).fst.getD i (HttpReq.mk "" [] "" none)
          = { path := "/sales/api/sales", query := [], method := "POST",
              body := some (ys.getD i JVal.undefined) }) ∧
       (∀ e, http ((ApiAdapter.saveSalesLoop http ys).fst.getD i
            (HttpReq.mk "" [] "" none)) = Except.error e →
        (ApiAdapter.saveSalesLoop http ys).snd.getD i JVal.undefined
          = ys.getD i JVal.undefined)) := by
  induction ys with
  | nil => exact ⟨rfl, rfl, fun i hi => absurd hi (by simp)⟩
  | cons y rest ih =>
      have hy : isObjLike y = true := hrec y (List.mem_cons_self y rest)
      obtain ⟨ih1, ih2, ih3⟩ := ih fun z hz => hrec z (List.mem_cons_of_mem _ hz)
      have hstep : ApiAdapter.saveSalesLoop http (y :: rest)
          = ((if ¬ nullish (getField y "ticket")
                ∧ jsTrim (jsToString (getField y "ticket")) ≠ "" then
                { path := "/sales/api/sales/"
                    ++ encodeURIComponent (jsToString (getField y "ticket")),
                  query := [], method := "PUT", body := some y }
              else
                { path := "/sales/api/sales", query := [], method := "POST",
                  body := some y })
              :: (ApiAdapter.saveSalesLoop http rest).fst,
             (match http (if ¬ nullish (getField y "ticket")
                  ∧ jsTrim (jsToString (getField y "ticket")) ≠ "" then
                { path := "/sales/api/sales/"
                    ++ encodeURIComponent (jsToString (getField y "ticket")),
                  query := [], method := "PUT", body := some y }
              else
                { path := "/sales/api/sales", query := [], method := "POST",
                  body := some y }) with
              | Except.ok d =>
                  if truthy d && truthy (getField d "item") then getField d "item" else y
              | Except.error _ => y)
              :: (ApiAdapter.saveSalesLoop http rest).snd) := by
        simp only [ApiAdapter.saveSalesLoop, toRecord_of_objLike hy]
      rw [hstep]
      refine ⟨by simp [ih1], by simp [ih2], ?_⟩
      intro i hi
      cases i with
      | zero =>
          refine ⟨fun hcond => ?_, fun hcond => ?_, fun e he => ?_⟩
          · simp only [List.getD_cons_zero] at hcond ⊢
            rw [if_pos hcond]
          · simp only [List.getD_cons_zero] at hcond ⊢
            rw [if_neg (by rcases hcond with h | h; exacts [fun hc => hc.1 h, fun hc => hc.2 h])]
          · simp only [List.getD_cons_zero] at he ⊢
            rw [he]
      | succ j =>
          simp only [List.getD_cons_succ]
          exact ih3 j (Nat.lt_of_succ_lt_succ hi)

/-- Claim C5: for input collections of record-shaped items, the Remote
Adapter's per-item bulk saves for inventory products and sales issue
exactly one request per item, in position: a PUT (update) to the item's
id-keyed (ticket-keyed) URL when the item's natural identifier is neither
null/undefined nor blank after string coercion, and a POST (create)
otherwise; the output collection has the same length as the input, and
whenever an individual item's request fails, the original unmodified input
item sits in the output at that item's position — no error is propagated. -/
theorem savePerItem_spec (http : HttpReq → Except String JVal) (xs ys : List JVal)
    (hxs : ∀ x ∈ xs, isObjLike x = true) (hys : ∀ y ∈ ys, isObjLike y = true) :
    ((ApiAdapter.saveInventoryProducts http (jarr xs)).fst.length = xs.length ∧
     (ApiAdapter.saveInventoryProducts http (jarr xs)).snd.length = xs.length ∧
     ∀ i, i < xs.length →
       ((¬ nullish (getField (xs.getD i JVal.undefined) "id") ∧
           jsTrim (jsToString (getField (xs.getD i JVal.undefined) "id")) ≠ "" →
         (ApiAdapter.saveInventoryProducts http (jarr xs)).fst.getD i (HttpReq.mk "" [] "" none)
           = { path := "/inventory/api/products/"
                 ++ encodeURIComponent (jsToString (getField (xs.getD i JVal.undefined) "id")),
               query := [], method := "PUT", body := some (xs.getD i JVal.undefined) }) ∧
        (nullish (getField (xs.getD i JVal.undefined) "id") ∨
           jsTrim (jsToString (getField (xs.getD i JVal.undefined) "id")) = "" →
         (ApiAdapter.saveInventoryProducts http (jarr xs)).fst.getD i (HttpReq.mk "" [] "" none)
           = { path := "/inventory/api/products", query := [], method := "POST",
               body := some (xs.getD i JVal.undefined) }) ∧
        (∀ e, http ((ApiAdapter.saveInventoryProducts http (jarr xs)).fst.getD i
             (HttpReq.mk "" [] "" none)) = Except.error e →
         (ApiAdapter.saveInventoryProducts http (jarr xs)).snd.getD i JVal.undefined
           = xs.getD i JVal.undefined))) ∧
    ((ApiAdapter.saveSales http (jarr ys)).fst.length = ys.length ∧
     (ApiAdapter.saveSales http (jarr ys)).snd.length = ys.length ∧
     ∀ i, i < ys.length →
       ((¬ nullish (getField (ys.getD i JVal.undefined) "ticket") ∧
           jsTrim (jsToString (getField (ys.getD i JVal.undefined) "ticket")) ≠ "" →
         (ApiAdapter.saveSales http (jarr ys)).fst.getD i (HttpReq.mk "" [] "" none)
           = { path := "/sales/api/sales/"
                 ++ encodeURIComponent (jsToString (getField (ys.getD i JVal.undefined) "ticket")),
               query := [], method := "PUT", body := some (ys.getD i JVal.undefined) }) ∧
        (nullish (getField (ys.getD i JVal.undefined) "ticket") ∨
           jsTrim (jsToString (getField (ys.getD i JVal.undefined) "ticket")) = "" →
         (ApiAdapter.saveSales http (jarr ys)).fst.getD i (HttpReq.mk "" [] "" none)
           = { path := "/sales/api/sales", query := [], method := "POST",
               body := some (ys.getD i JVal.undefined) }) ∧
        (∀ e, http ((ApiAdapter.saveSales http (jarr ys)).fst.getD i
             (HttpReq.mk "" [] "" none)) = Except.error e →
         (ApiAdapter.saveSales http (jarr ys)).snd.getD i JVal.undefined
           = ys.getD i JVal.undefined))) := by
  constructor
  · simpa only [ApiAdapter.saveInventoryProducts, ensureArray_jarr] using
      saveInventoryProductsLoop_spec http xs hxs
  · simpa only [ApiAdapter.saveSales, ensureArray_jarr] using
      saveSalesLoop_spec http ys hys

/-- Claim C5, witness: with an oracle on which every request fails,
saving the products `[{id:"a"}]` issues a PUT to the id-keyed URL and
echoes the original item at position 0; saving the sales `[{}]` (no
ticket) issues a POST and also echoes the original item. -/
theorem savePerItem_spec_witness :
    (∀ x ∈ [JVal.obj [("id", JVal.str "a")]], isObjLike x = true) ∧
    (ApiAdapter.saveInventoryProducts httpFail
        (jarr [JVal.obj [("id", JVal.str "a")]])).fst.getD 0 (HttpReq.mk "" [] "" none)
      = { path := "/inventory/api/products/a", query := [], method := "PUT",
          body := some (JVal.obj [("id", JVal.str "a")]) } ∧
    (ApiAdapter.saveInventoryProducts httpFail
        (jarr [JVal.obj [("id", JVal.str "a")]])).snd.getD 0 JVal.undefined
      = JVal.obj [("id", JVal.str "a")] ∧
    (ApiAdapter.saveSales httpFail (jarr [JVal.obj []])).fst.getD 0 (HttpReq.mk "" [] "" none)
      = { path := "/sales/api/sales", query := [], method := "POST",
          body := some (JVal.obj []) } ∧
    (ApiAdapter.saveSales httpFail (jarr [JVal.obj []])).snd.getD 0 JVal.undefined
      = JVal.obj [] := by
  have h := savePerItem_spec httpFail [JVal.obj [("id", JVal.str "a")]] [JVal.obj []]
    (by intro x hx; rw [List.mem_singleton.mp hx]; rfl)
    (by intro y hy; rw [List.mem_singleton.mp hy]; rfl)
  obtain ⟨⟨_, _, hp⟩, _, _, hs⟩ := h
  have hp0 := hp 0 (by decide)
  have hs0 := hs 0 (by decide)
  exact ⟨by intro x hx; rw [List.mem_singleton.mp hx]; rfl,
    hp0.1 ⟨by decide, by decide⟩,
    hp0.2.2 "network error" rfl,
    hs0.2.1 (Or.inl (by decide)),
    hs0.2.2 "network error" rfl⟩
